import Mathlib

/-!
Shallow embedding of `src/covid19sim/frozen/clustering/simple.py`
(`SimpleCluster` and `SimplisticClusterManager`), together with proofs
about the clustering behaviour described in the design document.

Conventions of the embedding:
* machine integers (uids, risk levels, tick timestamps, counts) are
  modelled as `Nat`; time differences that may be negative are `Int`;
* `np.round` applied to the mean of the message risk levels is modelled as
  round-half-to-even over the exact rational mean (`roundHalfEven`), which
  is numpy's rounding rule; on the small non-negative integer risk domain
  the exact rational mean and the float64 mean round identically;
* stateful Python methods become pure state-passing functions; the method
  `fit_update_message`, which either returns the update message or returns
  nothing after mutating, becomes a function returning
  `SimpleCluster × Option UpdateMessage`;
* `_add_update_message`, which can raise `AssertionError`, returns
  `Option SimplisticClusterManager` (`none` models the raised error);
* collaborators that live outside the embedded file (message field
  definitions, the merge/synthesis helpers of `message_utils`, the
  staleness predicate of the manager base class) are modelled from the
  design document and marked `Modelled from the spec:`.
-/

/-- Modelled from the spec: an encounter record
`{uid, risk_level: small non-negative integer, encounter_time: integer tick,
sender_id (debug), real_encounter_time (debug), exposure_flag (debug)}`.
The concrete dataclass lives in `covid19sim.frozen.message_utils`, outside
the embedded source file. -/
structure EncounterMessage where
  uid : Nat
  risk_level : Nat
  encounter_time : Nat
  _sender_uid : Nat
  _real_encounter_time : Nat
  _exposition_event : Bool
deriving DecidableEq, Inhabited

/-- Modelled from the spec: an update record
`{uid, old_risk_level, new_risk_level, encounter_time, update_time,
sender_id (debug), real_encounter_time (debug)}`, from
`covid19sim.frozen.message_utils`. -/
structure UpdateMessage where
  uid : Nat
  old_risk_level : Nat
  new_risk_level : Nat
  encounter_time : Nat
  update_time : Nat
  _sender_uid : Nat
  _real_encounter_time : Nat
deriving DecidableEq, Inhabited

/-- `GenericMessageType`: either kind of message, resolved as a tagged
variant (the Python code branches with `isinstance`). -/
inductive GenericMessage where
  | encounter (m : EncounterMessage)
  | update (m : UpdateMessage)
deriving DecidableEq, Inhabited

/-- Modelled from the spec: `synthesize_encounter_from_update(update) ->
encounter_record` (the `create_encounter_from_update_message` helper of
`message_utils`, outside the embedded file).  The update record means
"I previously reported `old_risk_level` for an encounter at
`encounter_time`; it is now `new_risk_level`", so the synthesized
encounter carries the update's uid and encounter time with the *new* risk
level, and the update's debug provenance. -/
def create_encounter_from_update_message (u : UpdateMessage) : EncounterMessage :=
  { uid := u.uid
    risk_level := u.new_risk_level
    encounter_time := u.encounter_time
    _sender_uid := u._sender_uid
    _real_encounter_time := u._real_encounter_time
    _exposition_event := false }

/-- Modelled from the spec: `merge_update_into_encounter(encounter_record,
update) -> encounter_record` (the `create_updated_encounter_with_message`
helper of `message_utils`, outside the embedded file): the stored
encounter with its risk level replaced by the update's new risk level. -/
def create_updated_encounter_with_message (e : EncounterMessage) (u : UpdateMessage) :
    EncounterMessage :=
  { e with risk_level := u.new_risk_level }

/-- Round half to even on an exact rational, numpy's `np.round` rule. -/
def roundHalfEven (q : ℚ) : ℤ :=
  let f : ℤ := ⌊q⌋
  let r : ℚ := q - f
  if r < 1 / 2 then f
  else if 1 / 2 < r then f + 1
  else if f % 2 = 0 then f else f + 1

/-- `RiskLevelType(np.round(np.mean([m.risk_level for m in messages])))`:
round half to even of the mean of the (non-negative) message risk levels,
computed in integer arithmetic so that it evaluates by kernel reduction;
`roundedMeanRisk_eq_roundHalfEven_mean` below proves it equal to
`roundHalfEven` applied to the exact rational mean. -/
def roundedMeanRisk (msgs : List EncounterMessage) : Nat :=
  let s := (msgs.map fun m => m.risk_level).sum
  let n := msgs.length
  if 2 * (s % n) < n then s / n
  else if n < 2 * (s % n) then s / n + 1
  else if s / n % 2 = 0 then s / n else s / n + 1

/-- `SimpleCluster`: app-visible fields plus the three debug logs. -/
structure SimpleCluster where
  cluster_id : Nat
  risk_level : Nat
  first_update_time : Nat
  latest_update_time : Nat
  messages : List EncounterMessage
  _real_encounter_uids : List Nat
  _real_encounter_times : List Nat
  _unclustered_messages : List GenericMessage
deriving DecidableEq, Inhabited

/-- `SimpleCluster.create_cluster_from_message`: creates a new cluster
seeded from a single (generic) message. -/
def SimpleCluster.create_cluster_from_message (message : GenericMessage) : SimpleCluster :=
  match message with
  | .encounter m =>
      { cluster_id := m.uid
        risk_level := m.risk_level
        first_update_time := m.encounter_time
        latest_update_time := m.encounter_time
        messages := [m]
        _real_encounter_uids := [m._sender_uid]
        _real_encounter_times := [m._real_encounter_time]
        _unclustered_messages := [.encounter m] }
  | .update m =>
      { cluster_id := m.uid
        risk_level := m.new_risk_level
        first_update_time := m.encounter_time
        latest_update_time := m.update_time
        messages := [create_encounter_from_update_message m]
        _real_encounter_uids := [m._sender_uid]
        _real_encounter_times := [m._real_encounter_time]
        _unclustered_messages := [.update m] }

/-- `SimpleCluster.fit_encounter_message`: appends the encounter, bumps
`latest_update_time` via `max` with the message's `encounter_time`, and
recomputes the risk level as the rounded mean over all messages. -/
def SimpleCluster.fit_encounter_message (c : SimpleCluster) (message : EncounterMessage) :
    SimpleCluster :=
  let msgs := c.messages ++ [message]
  { c with
    latest_update_time := max message.encounter_time c.latest_update_time
    messages := msgs
    risk_level := roundedMeanRisk msgs
    _real_encounter_uids := c._real_encounter_uids ++ [message._sender_uid]
    _real_encounter_times := c._real_encounter_times ++ [message._real_encounter_time]
    _unclustered_messages := c._unclustered_messages ++ [.encounter message] }

/-- The per-entry match test of the `fit_update_message` scan:
`encounter_message.risk_level == update_message.old_risk_level and
encounter_message.uid == update_message.uid and
encounter_message.encounter_time == update_message.encounter_time`. -/
def entryMatches (e : EncounterMessage) (u : UpdateMessage) : Bool :=
  e.risk_level == u.old_risk_level && e.uid == u.uid && e.encounter_time == u.encounter_time

/-- The `for encounter_message_idx, encounter_message in enumerate(...)`
scan of `fit_update_message`: first index/entry matching the update,
counting from `i`. -/
def findMatch (u : UpdateMessage) : List EncounterMessage → Nat → Option (Nat × EncounterMessage)
  | [], _ => none
  | e :: rest, i => if entryMatches e u then some (i, e) else findMatch u rest (i + 1)

/-- `SimpleCluster.fit_update_message`: replaces the first matching stored
encounter by the merged encounter and returns `none`, or returns the
update message unchanged when no stored encounter matches. -/
def SimpleCluster.fit_update_message (c : SimpleCluster) (update_message : UpdateMessage) :
    SimpleCluster × Option UpdateMessage :=
  match findMatch update_message c.messages 0 with
  | none => (c, some update_message)
  | some (idx, e) =>
      let msgs := c.messages.set idx (create_updated_encounter_with_message e update_message)
      ({ c with
          messages := msgs
          latest_update_time := max update_message.encounter_time c.latest_update_time
          risk_level := roundedMeanRisk msgs
          _real_encounter_uids := c._real_encounter_uids ++ [update_message._sender_uid]
          _real_encounter_times :=
            c._real_encounter_times ++ [update_message._real_encounter_time]
          _unclustered_messages := c._unclustered_messages ++ [.update update_message] },
        none)

/-- `SimpleCluster.get_cluster_embedding`: the `np.int64` feature vector
`[cluster_id?, risk_level, len(messages), current_timestamp -
first_update_time]`. -/
def SimpleCluster.get_cluster_embedding (c : SimpleCluster) (current_timestamp : Nat)
    (include_cluster_id : Bool) : List ℤ :=
  if include_cluster_id then
    [(c.cluster_id : ℤ), (c.risk_level : ℤ), (c.messages.length : ℤ),
      (current_timestamp : ℤ) - (c.first_update_time : ℤ)]
  else
    [(c.risk_level : ℤ), (c.messages.length : ℤ),
      (current_timestamp : ℤ) - (c.first_update_time : ℤ)]

/-- `SimpleCluster._get_cluster_exposition_flag`: whether any clustered
message carries the hidden exposition flag. -/
def SimpleCluster._get_cluster_exposition_flag (c : SimpleCluster) : Bool :=
  c.messages.any fun m => m._exposition_event

/-- The cluster-signature test of `_add_encounter_message`:
`cluster.cluster_id == message.uid and cluster.risk_level ==
message.risk_level and cluster.first_update_time ==
message.encounter_time`. -/
def encounterMatches (m : EncounterMessage) (c : SimpleCluster) : Bool :=
  c.cluster_id == m.uid && c.risk_level == m.risk_level &&
    c.first_update_time == m.encounter_time

/-- The cluster match test of `_add_update_message`: uid and encounter
time match the cluster signature and the cluster holds at least one
encounter with the update's old risk level. -/
def updateMatches (u : UpdateMessage) (c : SimpleCluster) : Bool :=
  c.cluster_id == u.uid && c.first_update_time == u.encounter_time &&
    c.messages.any fun e => e.risk_level == u.old_risk_level

/-- Indices (starting at `i`) of the clusters satisfying `p`, in scan
order.  The Python code appends matching clusters to `matched_clusters`
while scanning `self.clusters` in order (breaking at the first match when
no rng is configured; the chosen cluster is the same either way). -/
def matchingIdxsFrom (p : SimpleCluster → Bool) : List SimpleCluster → Nat → List Nat
  | [], _ => []
  | c :: rest, i =>
      if p c then i :: matchingIdxsFrom p rest (i + 1) else matchingIdxsFrom p rest (i + 1)

/-- In-place mutation of the cluster at index `i` (Python mutates the
matched cluster object inside `self.clusters`). -/
def fitAt (clusters : List SimpleCluster) (i : Nat) (f : SimpleCluster → SimpleCluster) :
    List SimpleCluster :=
  match clusters[i]? with
  | none => clusters
  | some c => clusters.set i (f c)

/-- `SimplisticClusterManager`.  `is_outdated` is modelled from the spec:
the external staleness predicate `_check_if_message_outdated` of the
manager base class (parameterized by `max_history_ticks_offset` and
`latest_refresh_timestamp`, with opaque bookkeeping side effects), which
the design document treats as an external yes/no collaborator; it is
embedded as an injected pure predicate.  `rng` is the optional randomness
source, embedded as an index oracle: given the number of matched
clusters it produces a number whose remainder selects the match
(`np.random.choice` draws that index uniformly). -/
structure SimplisticClusterManager where
  clusters : List SimpleCluster
  max_history_ticks_offset : Nat
  add_orphan_updates_as_clusters : Bool
  generate_embeddings_by_timestamp : Bool
  latest_refresh_timestamp : Nat
  is_outdated : GenericMessage → Bool
  rng : Option (Nat → Nat)

/-- `matched_clusters[0]` without rng, `self.rng.choice(matched_clusters)`
with rng (as the index drawn by the oracle). -/
def SimplisticClusterManager.pickIdx (mgr : SimplisticClusterManager) (idxs : List Nat) : Nat :=
  match mgr.rng with
  | none => idxs.headD 0
  | some f => idxs.getD (f idxs.length % idxs.length) 0

/-- `SimplisticClusterManager._add_encounter_message`: drop stale
messages, fit the message to the chosen signature-matching cluster, or
append a new singleton cluster when nothing matches. -/
def SimplisticClusterManager._add_encounter_message (mgr : SimplisticClusterManager)
    (message : EncounterMessage) : SimplisticClusterManager :=
  if mgr.is_outdated (.encounter message) then mgr
  else
    let idxs := matchingIdxsFrom (encounterMatches message) mgr.clusters 0
    if idxs.isEmpty then
      { mgr with
        clusters :=
          mgr.clusters ++ [SimpleCluster.create_cluster_from_message (.encounter message)] }
    else
      { mgr with
        clusters := fitAt mgr.clusters (mgr.pickIdx idxs) fun c =>
          c.fit_encounter_message message }

/-- `SimplisticClusterManager._add_update_message`: drop stale messages,
fit the update to the chosen matching cluster, or — when nothing matches —
append a synthesized singleton cluster under the permissive policy and
raise `AssertionError` (modelled as `none`) under the strict policy. -/
def SimplisticClusterManager._add_update_message (mgr : SimplisticClusterManager)
    (message : UpdateMessage) : Option SimplisticClusterManager :=
  if mgr.is_outdated (.update message) then some mgr
  else
    let idxs := matchingIdxsFrom (updateMatches message) mgr.clusters 0
    if idxs.isEmpty then
      if mgr.add_orphan_updates_as_clusters then
        some { mgr with
          clusters :=
            mgr.clusters ++ [SimpleCluster.create_cluster_from_message (.update message)] }
      else none
    else
      some { mgr with
        clusters := fitAt mgr.clusters (mgr.pickIdx idxs) fun c =>
          (c.fit_update_message message).1 }

/-- A Python `collections.defaultdict(list)` keyed by timestamps holding
lists of embedding rows, as an insertion-ordered association list. -/
def dictAppend (d : List (Nat × List (List ℤ))) (key : Nat) (v : List ℤ) :
    List (Nat × List (List ℤ)) :=
  match d with
  | [] => [(key, [v])]
  | (k, vs) :: rest =>
      if k == key then (k, vs ++ [v]) :: rest else (k, vs) :: dictAppend rest key v

/-- `defaultdict` lookup: the stored list, or `[]` for an absent key. -/
def dictGet (d : List (Nat × List (List ℤ))) (key : Nat) : List (List ℤ) :=
  match d with
  | [] => []
  | (k, vs) :: rest => if k == key then vs else dictGet rest key

/-- The `cluster_embeds` dict built by `get_embeddings_array`: for each
cluster (in order) and each of its messages (in order), append the
cluster's one embedding under the message's `encounter_time`. -/
def buildClusterEmbeds (d : List (Nat × List (List ℤ)))
    (pairs : List (Nat × List ℤ)) : List (Nat × List (List ℤ)) :=
  match pairs with
  | [] => d
  | (t, e) :: rest => buildClusterEmbeds (dictAppend d t e) rest

/-- The (timestamp, embedding) pairs generated by the timestamp-aligned
branch of `get_embeddings_array`, in generation order. -/
def SimplisticClusterManager.embedPairs (mgr : SimplisticClusterManager) :
    List (Nat × List ℤ) :=
  (mgr.clusters.map fun c =>
    c.messages.map fun msg =>
      (msg.encounter_time,
        c.get_cluster_embedding mgr.latest_refresh_timestamp true)).flatten

/-- `SimplisticClusterManager.get_embeddings_array`: timestamp-aligned
mode replays the defaultdict grouping (`flat_output` extended per key in
`sorted(cluster_embeds.keys())` order); cluster mode maps
`get_cluster_embedding` over the clusters in creation order. -/
def SimplisticClusterManager.get_embeddings_array (mgr : SimplisticClusterManager) :
    List (List ℤ) :=
  if mgr.generate_embeddings_by_timestamp then
    let cluster_embeds := buildClusterEmbeds [] mgr.embedPairs
    (((cluster_embeds.map Prod.fst).insertionSort (· ≤ ·)).map fun t =>
      dictGet cluster_embeds t).flatten
  else
    mgr.clusters.map fun c =>
      c.get_cluster_embedding mgr.latest_refresh_timestamp false

/-- Number of messages in cluster `c` sent by `user`
(the per-message increments of `user_true_encounter_counts`). -/
def senderCountIn (c : SimpleCluster) (user : Nat) : Nat :=
  (c.messages.filter fun m => m._sender_uid == user).length

/-- Whether cluster `c` holds at least one message sent by `user`
(membership in the `cluster_users` set). -/
def clusterHasSender (c : SimpleCluster) (user : Nat) : Bool :=
  c.messages.any fun m => m._sender_uid == user

/-- `user_true_encounter_counts[user]`: messages contributed by `user`
across all clusters. -/
def SimplisticClusterManager.true_count (mgr : SimplisticClusterManager) (user : Nat) : Nat :=
  (mgr.clusters.map fun c => senderCountIn c user).sum

/-- `user_total_encounter_count[user]`: sum of the full message counts of
every cluster holding at least one of `user`'s messages. -/
def SimplisticClusterManager.total_count (mgr : SimplisticClusterManager) (user : Nat) : Nat :=
  ((mgr.clusters.filter fun c => clusterHasSender c user).map fun c => c.messages.length).sum

/-- The key set of the returned homogeneity dict: every real sender id
appearing in some cluster's current messages. -/
def SimplisticClusterManager.homogeneity_users (mgr : SimplisticClusterManager) : List Nat :=
  ((mgr.clusters.map fun c => c.messages.map fun m => m._sender_uid).flatten).dedup

/-- The homogeneity score of `user`:
`user_true_encounter_counts[user] / user_total_encounter_count[user]`
(exact rational division; Python divides floats). -/
def SimplisticClusterManager.homogeneity_score (mgr : SimplisticClusterManager)
    (user : Nat) : ℚ :=
  (mgr.true_count user : ℚ) / (mgr.total_count user : ℚ)

/-- One step of a cluster's lifetime after creation: fitting an encounter
message or fitting an update message (the cluster part of the result). -/
inductive FitOp where
  | enc (m : EncounterMessage)
  | upd (u : UpdateMessage)
deriving DecidableEq, Inhabited

/-- Apply one lifetime step to a cluster. -/
def applyFit (c : SimpleCluster) : FitOp → SimpleCluster
  | .enc m => c.fit_encounter_message m
  | .upd u => (c.fit_update_message u).1

/-- Apply a sequence of lifetime steps to a cluster, in order. -/
def runFits (c : SimpleCluster) (ops : List FitOp) : SimpleCluster :=
  ops.foldl applyFit c

/-- The spec's description of the timestamp-aligned export mode, stated
independently of the defaultdict mechanics: group the (timestamp,
embedding) pairs by timestamp and concatenate the groups in ascending
timestamp order, preserving within-group insertion order. -/
def export_embeddings_ts_spec (mgr : SimplisticClusterManager) : List (List ℤ) :=
  (((mgr.embedPairs.map Prod.fst).dedup.insertionSort (· ≤ ·)).map fun t =>
    (mgr.embedPairs.filter fun p => p.1 == t).map Prod.snd).flatten

/-- A Manager with no clusters, the permissive orphan policy, no rng, and
a never-stale staleness predicate, used to instantiate concrete
scenarios. -/
def emptyPermissiveManager : SimplisticClusterManager :=
  { clusters := []
    max_history_ticks_offset := 1209600
    add_orphan_updates_as_clusters := true
    generate_embeddings_by_timestamp := true
    latest_refresh_timestamp := 0
    is_outdated := fun _ => false
    rng := none }

/-- The Manager obtained from `emptyPermissiveManager` after ingesting the
orphan update `update(uid=5, old=2, new=4, t=100, ut=200)`. -/
def orphanUpdateResult : SimplisticClusterManager :=
  { emptyPermissiveManager with
    clusters :=
      [] ++
        [SimpleCluster.create_cluster_from_message (.update ⟨5, 2, 4, 100, 200, 7, 100⟩)] }

theorem dictGet_dictAppend (d : List (Nat × List (List ℤ))) (k : Nat) (v : List ℤ)
    (k' : Nat) :
    dictGet (dictAppend d k v) k' =
      if k' = k then dictGet d k' ++ [v] else dictGet d k' := by
  induction d with
  | nil =>
      by_cases h : k' = k
      · subst h; simp [dictAppend, dictGet]
      · have h2 : ¬(k = k') := fun hh => h hh.symm
        simp [dictAppend, dictGet, h, h2]
  | cons p rest ih =>
      obtain ⟨a, vs⟩ := p
      by_cases hak : a = k
      · subst hak
        by_cases hk : k' = a
        · subst hk; simp [dictAppend, dictGet]
        · have h2 : ¬(a = k') := fun hh => hk hh.symm
          simp [dictAppend, dictGet, hk, h2]
      · by_cases hk : k' = a
        · subst hk
          simp [dictAppend, dictGet, hak]
        · have h2 : ¬(a = k') := fun hh => hk hh.symm
          simp [dictAppend, dictGet, hak, hk, h2, ih]

theorem dictGet_buildClusterEmbeds (pairs : List (Nat × List ℤ))
    (d : List (Nat × List (List ℤ))) (k : Nat) :
    dictGet (buildClusterEmbeds d pairs) k =
      dictGet d k ++ (pairs.filter fun p => p.1 == k).map Prod.snd := by
  induction pairs generalizing d with
  | nil => simp [buildClusterEmbeds]
  | cons p rest ih =>
      obtain ⟨t, e⟩ := p
      by_cases h : t = k
      · subst h
        simp [buildClusterEmbeds, ih, dictGet_dictAppend]
      · simp [buildClusterEmbeds, ih, dictGet_dictAppend, h, Ne.symm h]

theorem keys_dictAppend (d : List (Nat × List (List ℤ))) (k : Nat) (v : List ℤ) :
    (dictAppend d k v).map Prod.fst =
      if k ∈ d.map Prod.fst then d.map Prod.fst else d.map Prod.fst ++ [k] := by
  induction d with
  | nil => simp [dictAppend]
  | cons p rest ih =>
      obtain ⟨a, vs⟩ := p
      by_cases hak : a = k
      · subst hak
        simp [dictAppend]
      · by_cases hmem : k ∈ rest.map Prod.fst <;>
          simp [dictAppend, hak, Ne.symm hak, ih, hmem]

theorem mem_keys_dictAppend (d : List (Nat × List (List ℤ))) (k : Nat) (v : List ℤ)
    (k' : Nat) :
    k' ∈ (dictAppend d k v).map Prod.fst ↔ k' ∈ d.map Prod.fst ∨ k' = k := by
  rw [keys_dictAppend]
  by_cases hmem : k ∈ d.map Prod.fst
  · rw [if_pos hmem]
    constructor
    · exact fun h => Or.inl h
    · rintro (h | h)
      · exact h
      · exact h ▸ hmem
  · rw [if_neg hmem, List.mem_append, List.mem_singleton]

theorem nodup_keys_dictAppend (d : List (Nat × List (List ℤ))) (k : Nat) (v : List ℤ)
    (h : (d.map Prod.fst).Nodup) : ((dictAppend d k v).map Prod.fst).Nodup := by
  rw [keys_dictAppend]
  by_cases hmem : k ∈ d.map Prod.fst
  · rwa [if_pos hmem]
  · rw [if_neg hmem]
    refine List.Nodup.append h (List.nodup_singleton k) ?_
    intro a ha hb
    rw [List.mem_singleton] at hb
    exact hmem (hb ▸ ha)

theorem mem_keys_buildClusterEmbeds (pairs : List (Nat × List ℤ))
    (d : List (Nat × List (List ℤ))) (k : Nat) :
    k ∈ (buildClusterEmbeds d pairs).map Prod.fst ↔
      k ∈ d.map Prod.fst ∨ k ∈ pairs.map Prod.fst := by
  induction pairs generalizing d with
  | nil => simp [buildClusterEmbeds]
  | cons p rest ih =>
      obtain ⟨t, e⟩ := p
      rw [show buildClusterEmbeds d ((t, e) :: rest) = buildClusterEmbeds (dictAppend d t e) rest
            from rfl,
        ih, mem_keys_dictAppend, List.map_cons, List.mem_cons]
      tauto

theorem nodup_keys_buildClusterEmbeds (pairs : List (Nat × List ℤ))
    (d : List (Nat × List (List ℤ))) (h : (d.map Prod.fst).Nodup) :
    ((buildClusterEmbeds d pairs).map Prod.fst).Nodup := by
  induction pairs generalizing d with
  | nil => simpa [buildClusterEmbeds]
  | cons p rest ih =>
      obtain ⟨t, e⟩ := p
      exact ih _ (nodup_keys_dictAppend d t e h)

theorem mem_matchingIdxsFrom (p : SimpleCluster → Bool) (l : List SimpleCluster) :
    ∀ i j : Nat, j ∈ matchingIdxsFrom p l i ↔
      ∃ k, k < l.length ∧ j = i + k ∧ p (l.getD k default) = true := by
  induction l with
  | nil => intro i j; simp [matchingIdxsFrom]
  | cons c rest ih =>
      intro i j
      by_cases hc : p c
      · simp only [matchingIdxsFrom, if_pos hc, List.mem_cons, ih]
        constructor
        · rintro (h | ⟨k, hk, hj, hp⟩)
          · exact ⟨0, Nat.succ_pos _, by omega, by simpa [List.getD_cons_zero] using hc⟩
          · exact ⟨k + 1, by simpa using hk, by omega, by simpa [List.getD_cons_succ] using hp⟩
        · rintro ⟨k, hk, hj, hp⟩
          cases k with
          | zero => left; omega
          | succ k2 =>
              right
              rw [List.length_cons] at hk
              exact ⟨k2, by omega, by omega, by simpa [List.getD_cons_succ] using hp⟩
      · simp only [matchingIdxsFrom, if_neg hc, ih]
        constructor
        · rintro ⟨k, hk, hj, hp⟩
          exact ⟨k + 1, by simpa using hk, by omega, by simpa [List.getD_cons_succ] using hp⟩
        · rintro ⟨k, hk, hj, hp⟩
          cases k with
          | zero =>
              rw [List.getD_cons_zero] at hp
              exact absurd hp hc
          | succ k2 =>
              rw [List.length_cons] at hk
              exact ⟨k2, by omega, by omega, by simpa [List.getD_cons_succ] using hp⟩

theorem mem_matchingIdxs_zero (p : SimpleCluster → Bool) (l : List SimpleCluster) (j : Nat) :
    j ∈ matchingIdxsFrom p l 0 ↔ j < l.length ∧ p (l.getD j default) = true := by
  rw [mem_matchingIdxsFrom]
  constructor
  · rintro ⟨k, hk, hj, hp⟩
    have hjk : j = k := by omega
    subst hjk
    exact ⟨hk, hp⟩
  · rintro ⟨hj, hp⟩
    exact ⟨j, hj, by omega, hp⟩

theorem matchingIdxsFrom_eq_nil_iff (p : SimpleCluster → Bool) (l : List SimpleCluster)
    (i : Nat) :
    matchingIdxsFrom p l i = [] ↔ ∀ k, k < l.length → p (l.getD k default) = false := by
  rw [List.eq_nil_iff_forall_not_mem]
  constructor
  · intro h k hk
    by_contra hp
    have hp2 : p (l.getD k default) = true := by
      cases hval : p (l.getD k default)
      · exact absurd hval hp
      · rfl
    exact h (i + k) ((mem_matchingIdxsFrom p l i (i + k)).2 ⟨k, hk, rfl, hp2⟩)
  · intro h j hj
    obtain ⟨k, hk, _, hp⟩ := (mem_matchingIdxsFrom p l i j).1 hj
    rw [h k hk] at hp
    exact Bool.false_ne_true hp

theorem headD_matchingIdxsFrom_min (p : SimpleCluster → Bool) (l : List SimpleCluster) :
    ∀ i : Nat, matchingIdxsFrom p l i ≠ [] →
      (matchingIdxsFrom p l i).headD 0 ∈ matchingIdxsFrom p l i ∧
      ∀ j ∈ matchingIdxsFrom p l i, (matchingIdxsFrom p l i).headD 0 ≤ j := by
  induction l with
  | nil => intro i h; exact absurd rfl h
  | cons c rest ih =>
      intro i h
      by_cases hc : p c
      · simp only [matchingIdxsFrom, if_pos hc] at h ⊢
        refine ⟨List.mem_cons_self _ _, ?_⟩
        intro j hj
        simp only [List.headD_cons]
        rcases List.mem_cons.1 hj with h1 | h1
        · omega
        · obtain ⟨k, _, hj2, _⟩ := (mem_matchingIdxsFrom p rest (i + 1) j).1 h1
          omega
      · simp only [matchingIdxsFrom, if_neg hc] at h ⊢
        exact ih (i + 1) h

theorem fitAt_eq_set (clusters : List SimpleCluster) (i : Nat)
    (f : SimpleCluster → SimpleCluster) (h : i < clusters.length) :
    fitAt clusters i f = clusters.set i (f (clusters.getD i default)) := by
  unfold fitAt
  rw [List.getElem?_eq_getElem h, List.getD_eq_getElem clusters default h]

theorem fitAt_of_ge (clusters : List SimpleCluster) (i : Nat)
    (f : SimpleCluster → SimpleCluster) (h : clusters.length ≤ i) :
    fitAt clusters i f = clusters := by
  unfold fitAt
  rw [List.getElem?_eq_none h]

theorem pickIdx_mem (mgr : SimplisticClusterManager) (idxs : List Nat) (h : idxs ≠ []) :
    mgr.pickIdx idxs ∈ idxs := by
  unfold SimplisticClusterManager.pickIdx
  cases hr : mgr.rng with
  | none =>
      cases idxs with
      | nil => exact absurd rfl h
      | cons a t => simp
  | some f =>
      have hlen : 0 < idxs.length := List.length_pos.2 h
      have hlt : f idxs.length % idxs.length < idxs.length := Nat.mod_lt _ hlen
      show idxs.getD (f idxs.length % idxs.length) 0 ∈ idxs
      rw [List.getD_eq_getElem idxs 0 hlt]
      exact List.getElem_mem hlt

theorem roundedMeanRisk_singleton (m : EncounterMessage) :
    roundedMeanRisk [m] = m.risk_level := by
  simp [roundedMeanRisk, Nat.mod_one, Nat.div_one]

theorem intRoundHalfEven_div (s n : ℕ) (hn : 0 < n) :
    (if 2 * (s % n) < n then s / n
      else if n < 2 * (s % n) then s / n + 1
      else if s / n % 2 = 0 then s / n else s / n + 1) =
      (roundHalfEven ((s : ℚ) / (n : ℚ))).toNat := by
  have hnq : (0 : ℚ) < (n : ℚ) := by exact_mod_cast hn
  have hfloor : ⌊(s : ℚ) / (n : ℚ)⌋ = (s / n : ℕ) := Rat.floor_natCast_div_natCast s n
  have h0 : n * (s / n) + s % n = s := Nat.div_add_mod s n
  have hsplit : (s : ℚ) = (n : ℚ) * ((s / n : ℕ) : ℚ) + ((s % n : ℕ) : ℚ) := by
    exact_mod_cast h0.symm
  have hfrac : (s : ℚ) / (n : ℚ) - ((s / n : ℕ) : ℚ) = ((s % n : ℕ) : ℚ) / (n : ℚ) := by
    field_simp
    rw [hsplit]
    ring
  have hlt : ((s % n : ℕ) : ℚ) / (n : ℚ) < 1 / 2 ↔ 2 * (s % n) < n := by
    rw [div_lt_div_iff₀ hnq (by norm_num)]
    constructor
    · intro hq
      have : ((2 * (s % n) : ℕ) : ℚ) < (n : ℚ) := by push_cast; linarith
      exact_mod_cast this
    · intro hq
      have : ((2 * (s % n) : ℕ) : ℚ) < (n : ℚ) := by exact_mod_cast hq
      push_cast at this
      linarith
  have hgt : (1 : ℚ) / 2 < ((s % n : ℕ) : ℚ) / (n : ℚ) ↔ n < 2 * (s % n) := by
    rw [div_lt_div_iff₀ (by norm_num) hnq]
    constructor
    · intro hq
      have : ((n : ℕ) : ℚ) < ((2 * (s % n) : ℕ) : ℚ) := by push_cast; linarith
      exact_mod_cast this
    · intro hq
      have : ((n : ℕ) : ℚ) < ((2 * (s % n) : ℕ) : ℚ) := by exact_mod_cast hq
      push_cast at this
      linarith
  have hpar : ((s / n : ℕ) : ℤ) % 2 = 0 ↔ s / n % 2 = 0 := by omega
  rw [roundHalfEven]
  simp only [hfloor, Int.cast_natCast, hfrac]
  rcases Nat.lt_trichotomy (2 * (s % n)) n with hc | hc | hc
  · rw [if_pos hc, if_pos (hlt.2 hc)]
    generalize s / n = q
    omega
  · have hnot1 : ¬ 2 * (s % n) < n := by omega
    have hnot2 : ¬ n < 2 * (s % n) := by omega
    have hq1 : ¬ ((s % n : ℕ) : ℚ) / (n : ℚ) < 1 / 2 := fun hq => hnot1 (hlt.1 hq)
    have hq2 : ¬ (1 : ℚ) / 2 < ((s % n : ℕ) : ℚ) / (n : ℚ) := fun hq => hnot2 (hgt.1 hq)
    rw [if_neg hnot1, if_neg hnot2, if_neg hq1, if_neg hq2]
    by_cases hp : s / n % 2 = 0
    · rw [if_pos hp, if_pos (hpar.2 hp)]
      generalize s / n = q
      omega
    · rw [if_neg hp, if_neg (fun hq => hp (hpar.1 hq))]
      generalize s / n = q
      omega
  · have hnot1 : ¬ 2 * (s % n) < n := by omega
    have hq1 : ¬ ((s % n : ℕ) : ℚ) / (n : ℚ) < 1 / 2 := fun hq => hnot1 (hlt.1 hq)
    rw [if_neg hnot1, if_neg hq1, if_pos hc, if_pos (hgt.2 hc)]
    generalize s / n = q
    omega

theorem roundedMeanRisk_eq_roundHalfEven_mean (msgs : List EncounterMessage)
    (h : msgs ≠ []) :
    roundedMeanRisk msgs =
      (roundHalfEven
        (((msgs.map fun m => (m.risk_level : ℚ)).sum) / (msgs.length : ℚ))).toNat := by
  have hn : 0 < msgs.length := List.length_pos.2 h
  have hcast : ((msgs.map fun m => (m.risk_level : ℚ)).sum) =
      (((msgs.map fun m => m.risk_level).sum : ℕ) : ℚ) := by
    rw [Nat.cast_list_sum, List.map_map]
    rfl
  rw [roundedMeanRisk, hcast]
  exact intRoundHalfEven_div _ _ hn

theorem findMatch_eq_none_iff (u : UpdateMessage) (l : List EncounterMessage) :
    ∀ i : Nat, findMatch u l i = none ↔
      ∀ k, k < l.length → entryMatches (l.getD k default) u = false := by
  induction l with
  | nil => intro i; simp [findMatch]
  | cons e rest ih =>
      intro i
      by_cases he : entryMatches e u
      · simp only [findMatch, if_pos he]
        constructor
        · intro h; cases h
        · intro h
          have h0 := h 0 (Nat.succ_pos _)
          rw [List.getD_cons_zero] at h0
          rw [he] at h0
          cases h0
      · simp only [findMatch, if_neg he, ih]
        constructor
        · intro h k hk
          cases k with
          | zero =>
              rw [List.getD_cons_zero]
              cases hval : entryMatches e u
              · rfl
              · exact absurd hval he
          | succ k2 =>
              rw [List.getD_cons_succ]
              rw [List.length_cons] at hk
              exact h k2 (by omega)
        · intro h k hk
          have := h (k + 1) (by rw [List.length_cons]; omega)
          rwa [List.getD_cons_succ] at this

theorem findMatch_eq_some (u : UpdateMessage) (l : List EncounterMessage) :
    ∀ (i idx : Nat) (e : EncounterMessage), findMatch u l i = some (idx, e) →
      i ≤ idx ∧ idx - i < l.length ∧ l.getD (idx - i) default = e ∧
        entryMatches e u = true ∧
        ∀ k, k < idx - i → entryMatches (l.getD k default) u = false := by
  induction l with
  | nil => intro i idx e h; cases h
  | cons e2 rest ih =>
      intro i idx e h
      by_cases he : entryMatches e2 u
      · rw [findMatch, if_pos he] at h
        cases h
        refine ⟨le_refl i, ?_, ?_, he, ?_⟩
        · rw [Nat.sub_self, List.length_cons]; omega
        · rw [Nat.sub_self, List.getD_cons_zero]
        · intro k hk
          rw [Nat.sub_self] at hk
          omega
      · rw [findMatch, if_neg he] at h
        obtain ⟨hle, hlt, hget, hm, hpre⟩ := ih (i + 1) idx e h
        refine ⟨by omega, ?_, ?_, hm, ?_⟩
        · rw [List.length_cons]; omega
        · have hidx : idx - i = (idx - (i + 1)) + 1 := by omega
          rw [hidx, List.getD_cons_succ]
          exact hget
        · intro k hk
          cases k with
          | zero =>
              rw [List.getD_cons_zero]
              cases hval : entryMatches e2 u
              · rfl
              · exact absurd hval he
          | succ k2 =>
              rw [List.getD_cons_succ]
              exact hpre k2 (by omega)

/-- C8: for every cluster and every current timestamp, `get_embedding`
returns the integer vector `[cluster_id, risk_level, len(messages),
current_timestamp - first_update_time]` of length 4 when
`include_cluster_id` is true, and `[risk_level, len(messages),
current_timestamp - first_update_time]` of length 3 when it is false,
every element an exact integer recoverable from the cluster state. -/
theorem C8_get_embedding_shape (c : SimpleCluster) (current_timestamp : Nat) :
    c.get_cluster_embedding current_timestamp true =
        [(c.cluster_id : ℤ), (c.risk_level : ℤ), (c.messages.length : ℤ),
          (current_timestamp : ℤ) - (c.first_update_time : ℤ)] ∧
      (c.get_cluster_embedding current_timestamp true).length = 4 ∧
      c.get_cluster_embedding current_timestamp false =
        [(c.risk_level : ℤ), (c.messages.length : ℤ),
          (current_timestamp : ℤ) - (c.first_update_time : ℤ)] ∧
      (c.get_cluster_embedding current_timestamp false).length = 3 :=
  ⟨rfl, rfl, rfl, rfl⟩

/-- C2: immediately after every cluster mutation — creation from a
message, `fit_encounter`, or a successful `fit_update` — the cluster's
`risk_level` equals the rounded mean of the `risk_level` values of the
messages it currently holds. -/
theorem C2_risk_is_rounded_mean :
    (∀ g : GenericMessage,
        (SimpleCluster.create_cluster_from_message g).risk_level =
          roundedMeanRisk (SimpleCluster.create_cluster_from_message g).messages) ∧
      (∀ (c : SimpleCluster) (m : EncounterMessage),
        (c.fit_encounter_message m).risk_level =
          roundedMeanRisk (c.fit_encounter_message m).messages) ∧
      (∀ (c c2 : SimpleCluster) (u : UpdateMessage),
        c.fit_update_message u = (c2, none) →
          c2.risk_level = roundedMeanRisk c2.messages) := by
  refine ⟨?_, ?_, ?_⟩
  · intro g
    cases g with
    | encounter m =>
        simp [SimpleCluster.create_cluster_from_message, roundedMeanRisk_singleton]
    | update m =>
        simp [SimpleCluster.create_cluster_from_message, roundedMeanRisk_singleton,
          create_encounter_from_update_message]
  · intro c m
    rfl
  · intro c c2 u h
    unfold SimpleCluster.fit_update_message at h
    cases hf : findMatch u c.messages 0 with
    | none =>
        rw [hf] at h
        exact absurd (congrArg Prod.snd h) (by simp)
    | some pe =>
        obtain ⟨idx, e⟩ := pe
        rw [hf] at h
        have h1 := congrArg Prod.fst h
        simp only at h1
        rw [← h1]

/-- Witness for C2 at a concrete successful `fit_update`: the cluster from
`encounter(uid=5, risk=2, t=100)` updated by
`update(uid=5, old=2, new=4, t=100)`. -/
theorem C2_witness :
    ((SimpleCluster.create_cluster_from_message
          (.encounter ⟨5, 2, 100, 7, 100, false⟩)).fit_update_message
        ⟨5, 2, 4, 100, 200, 7, 100⟩).1.risk_level =
      roundedMeanRisk
        ((SimpleCluster.create_cluster_from_message
              (.encounter ⟨5, 2, 100, 7, 100, false⟩)).fit_update_message
            ⟨5, 2, 4, 100, 200, 7, 100⟩).1.messages :=
  C2_risk_is_rounded_mean.2.2
    (SimpleCluster.create_cluster_from_message (.encounter ⟨5, 2, 100, 7, 100, false⟩))
    ((SimpleCluster.create_cluster_from_message
          (.encounter ⟨5, 2, 100, 7, 100, false⟩)).fit_update_message
        ⟨5, 2, 4, 100, 200, 7, 100⟩).1
    ⟨5, 2, 4, 100, 200, 7, 100⟩ (by decide)

/-- C3 as stated is false on the code: a cluster created from an update
message takes its initial `latest_update_time` from the update's
`update_time` field, not from its `encounter_time`
(`create_cluster_from_message`, update branch).  Concretely, for the
update message with `encounter_time = 3` and `update_time = 5`, the new
cluster's `latest_update_time` is `5 ≠ 3`. -/
theorem C3_counterexample :
    (SimpleCluster.create_cluster_from_message
          (.update ⟨1, 0, 2, 3, 5, 7, 3⟩)).latest_update_time =
        (⟨1, 0, 2, 3, 5, 7, 3⟩ : UpdateMessage).update_time ∧
      (SimpleCluster.create_cluster_from_message
          (.update ⟨1, 0, 2, 3, 5, 7, 3⟩)).latest_update_time ≠
        (⟨1, 0, 2, 3, 5, 7, 3⟩ : UpdateMessage).encounter_time := by
  decide

/-- C3 amended: over every cluster lifetime, `latest_update_time` is
monotonically non-decreasing; both fit operations derive it from the
fitted message's `encounter_time` (via `max`, an unsuccessful
`fit_update` leaving it unchanged), and creation from an encounter
message initializes it to the message's `encounter_time` — but creation
from an update message initializes it to the update's `update_time`. -/
theorem C3_amended_latest_update_time :
    (∀ (c : SimpleCluster) (ops : List FitOp),
        c.latest_update_time ≤ (runFits c ops).latest_update_time) ∧
      (∀ (c : SimpleCluster) (m : EncounterMessage),
        (c.fit_encounter_message m).latest_update_time =
          max m.encounter_time c.latest_update_time) ∧
      (∀ (c : SimpleCluster) (u : UpdateMessage),
        (c.fit_update_message u).1.latest_update_time = c.latest_update_time ∨
          (c.fit_update_message u).1.latest_update_time =
            max u.encounter_time c.latest_update_time) ∧
      (∀ m : EncounterMessage,
        (SimpleCluster.create_cluster_from_message
            (.encounter m)).latest_update_time = m.encounter_time) ∧
      (∀ u : UpdateMessage,
        (SimpleCluster.create_cluster_from_message
            (.update u)).latest_update_time = u.update_time) := by
  have hstep : ∀ (c : SimpleCluster) (op : FitOp),
      c.latest_update_time ≤ (applyFit c op).latest_update_time := by
    intro c op
    cases op with
    | enc m => exact le_max_right _ _
    | upd u =>
        show c.latest_update_time ≤ (c.fit_update_message u).1.latest_update_time
        unfold SimpleCluster.fit_update_message
        cases hf : findMatch u c.messages 0 with
        | none => exact le_refl _
        | some pe =>
            obtain ⟨idx, e⟩ := pe
            exact le_max_right _ _
  refine ⟨?_, ?_, ?_, ?_, ?_⟩
  · intro c ops
    induction ops generalizing c with
    | nil => exact le_refl _
    | cons op rest ih =>
        exact le_trans (hstep c op) (ih (applyFit c op))
  · intro c m
    rfl
  · intro c u
    unfold SimpleCluster.fit_update_message
    cases hf : findMatch u c.messages 0 with
    | none => exact Or.inl rfl
    | some pe =>
        obtain ⟨idx, e⟩ := pe
        exact Or.inr rfl
  · intro m
    rfl
  · intro u
    rfl

/-- C5: `fit_update` scans the cluster's messages in arrival order for the
first entry whose `(risk_level, uid, encounter_time)` equals the update's
`(old_risk_level, uid, encounter_time)`; with no match it returns the
update unchanged and leaves the whole cluster state unmodified; with a
match at index `idx` it replaces that entry by the merged encounter and
returns no value. -/
theorem C5_fit_update_scan (c : SimpleCluster) (u : UpdateMessage) :
    (∀ e : EncounterMessage, entryMatches e u = true ↔
        e.risk_level = u.old_risk_level ∧ e.uid = u.uid ∧
          e.encounter_time = u.encounter_time) ∧
      (findMatch u c.messages 0 = none ↔
        ∀ k, k < c.messages.length →
          entryMatches (c.messages.getD k default) u = false) ∧
      (findMatch u c.messages 0 = none → c.fit_update_message u = (c, some u)) ∧
      (∀ (idx : Nat) (e : EncounterMessage), findMatch u c.messages 0 = some (idx, e) →
        idx < c.messages.length ∧ c.messages.getD idx default = e ∧
          entryMatches e u = true ∧
          (∀ k, k < idx → entryMatches (c.messages.getD k default) u = false) ∧
          c.fit_update_message u =
            ({ c with
                messages := c.messages.set idx (create_updated_encounter_with_message e u)
                latest_update_time := max u.encounter_time c.latest_update_time
                risk_level :=
                  roundedMeanRisk
                    (c.messages.set idx (create_updated_encounter_with_message e u))
                _real_encounter_uids := c._real_encounter_uids ++ [u._sender_uid]
                _real_encounter_times :=
                  c._real_encounter_times ++ [u._real_encounter_time]
                _unclustered_messages := c._unclustered_messages ++ [.update u] },
              none)) := by
  refine ⟨?_, findMatch_eq_none_iff u c.messages 0, ?_, ?_⟩
  · intro e
    simp [entryMatches]
    tauto
  · intro h
    unfold SimpleCluster.fit_update_message
    rw [h]
  · intro idx e h
    obtain ⟨-, hlt, hget, hm, hpre⟩ := findMatch_eq_some u c.messages 0 idx e h
    rw [Nat.sub_zero] at hlt hget hpre
    refine ⟨hlt, hget, hm, hpre, ?_⟩
    unfold SimpleCluster.fit_update_message
    rw [h]

/-- Witness for C5 at a concrete cluster: both branches instantiated — the
cluster from `encounter(uid=5, risk=2, t=100)` with a matching update
(entry replaced, nothing returned) and with a non-matching update (state
unchanged, update handed back). -/
theorem C5_witness :
    ((SimpleCluster.create_cluster_from_message
          (.encounter ⟨5, 2, 100, 7, 100, false⟩)).fit_update_message
        ⟨5, 2, 4, 100, 200, 7, 100⟩ =
      ({ cluster_id := 5
         risk_level :=
           roundedMeanRisk
             ((SimpleCluster.create_cluster_from_message
                   (.encounter ⟨5, 2, 100, 7, 100, false⟩)).messages.set 0
               (create_updated_encounter_with_message ⟨5, 2, 100, 7, 100, false⟩
                 ⟨5, 2, 4, 100, 200, 7, 100⟩))
         first_update_time := 100
         latest_update_time := 100
         messages :=
           (SimpleCluster.create_cluster_from_message
               (.encounter ⟨5, 2, 100, 7, 100, false⟩)).messages.set 0
             (create_updated_encounter_with_message ⟨5, 2, 100, 7, 100, false⟩
               ⟨5, 2, 4, 100, 200, 7, 100⟩)
         _real_encounter_uids := [7, 7]
         _real_encounter_times := [100, 100]
         _unclustered_messages :=
           [.encounter ⟨5, 2, 100, 7, 100, false⟩,
             .update ⟨5, 2, 4, 100, 200, 7, 100⟩] }, none)) ∧
    ((SimpleCluster.create_cluster_from_message
          (.encounter ⟨5, 2, 100, 7, 100, false⟩)).fit_update_message
        ⟨5, 3, 4, 100, 200, 7, 100⟩ =
      (SimpleCluster.create_cluster_from_message
          (.encounter ⟨5, 2, 100, 7, 100, false⟩), some ⟨5, 3, 4, 100, 200, 7, 100⟩)) := by
  constructor
  · have h := (C5_fit_update_scan
        (SimpleCluster.create_cluster_from_message
          (.encounter ⟨5, 2, 100, 7, 100, false⟩))
        ⟨5, 2, 4, 100, 200, 7, 100⟩).2.2.2 0 ⟨5, 2, 100, 7, 100, false⟩ (by decide)
    rw [h.2.2.2.2]
    decide
  · exact (C5_fit_update_scan
      (SimpleCluster.create_cluster_from_message
        (.encounter ⟨5, 2, 100, 7, 100, false⟩))
      ⟨5, 3, 4, 100, 200, 7, 100⟩).2.2.1 (by decide)

theorem add_encounter_eq_of_outdated (mgr : SimplisticClusterManager)
    (m : EncounterMessage) (h : mgr.is_outdated (.encounter m) = true) :
    mgr._add_encounter_message m = mgr := by
  unfold SimplisticClusterManager._add_encounter_message
  rw [h]
  simp

theorem add_encounter_eq_of_nomatch (mgr : SimplisticClusterManager)
    (m : EncounterMessage) (h : mgr.is_outdated (.encounter m) = false)
    (hemp : matchingIdxsFrom (encounterMatches m) mgr.clusters 0 = []) :
    mgr._add_encounter_message m =
      { mgr with
        clusters :=
          mgr.clusters ++ [SimpleCluster.create_cluster_from_message (.encounter m)] } := by
  unfold SimplisticClusterManager._add_encounter_message
  rw [h]
  simp [hemp]

theorem add_encounter_eq_of_match (mgr : SimplisticClusterManager)
    (m : EncounterMessage) (h : mgr.is_outdated (.encounter m) = false)
    (hne : matchingIdxsFrom (encounterMatches m) mgr.clusters 0 ≠ []) :
    mgr._add_encounter_message m =
      { mgr with
        clusters :=
          fitAt mgr.clusters
            (mgr.pickIdx (matchingIdxsFrom (encounterMatches m) mgr.clusters 0))
            (fun c => c.fit_encounter_message m) } := by
  unfold SimplisticClusterManager._add_encounter_message
  rw [h]
  simp [List.isEmpty_iff, hne]

theorem add_update_eq_of_outdated (mgr : SimplisticClusterManager)
    (u : UpdateMessage) (h : mgr.is_outdated (.update u) = true) :
    mgr._add_update_message u = some mgr := by
  unfold SimplisticClusterManager._add_update_message
  rw [h]
  simp

theorem add_update_eq_of_nomatch_orphan (mgr : SimplisticClusterManager)
    (u : UpdateMessage) (h : mgr.is_outdated (.update u) = false)
    (hemp : matchingIdxsFrom (updateMatches u) mgr.clusters 0 = [])
    (horphan : mgr.add_orphan_updates_as_clusters = true) :
    mgr._add_update_message u =
      some { mgr with
        clusters :=
          mgr.clusters ++ [SimpleCluster.create_cluster_from_message (.update u)] } := by
  unfold SimplisticClusterManager._add_update_message
  rw [h]
  simp [hemp, horphan]

theorem add_update_eq_of_nomatch_strict (mgr : SimplisticClusterManager)
    (u : UpdateMessage) (h : mgr.is_outdated (.update u) = false)
    (hemp : matchingIdxsFrom (updateMatches u) mgr.clusters 0 = [])
    (horphan : mgr.add_orphan_updates_as_clusters = false) :
    mgr._add_update_message u = none := by
  unfold SimplisticClusterManager._add_update_message
  rw [h]
  simp [hemp, horphan]

theorem add_update_eq_of_match (mgr : SimplisticClusterManager)
    (u : UpdateMessage) (h : mgr.is_outdated (.update u) = false)
    (hne : matchingIdxsFrom (updateMatches u) mgr.clusters 0 ≠ []) :
    mgr._add_update_message u =
      some { mgr with
        clusters :=
          fitAt mgr.clusters
            (mgr.pickIdx (matchingIdxsFrom (updateMatches u) mgr.clusters 0))
            (fun c => (c.fit_update_message u).1) } := by
  unfold SimplisticClusterManager._add_update_message
  rw [h]
  simp [List.isEmpty_iff, hne]

/-- C1: for every non-stale encounter message, the Manager matches
clusters by exact signature equality (`cluster_id = uid`, `risk_level =
risk_level`, `first_update_time = encounter_time`); with no rng it fits
the message into the earliest-created matching cluster, with an rng it
fits it into a matching cluster chosen by the injected randomness (any
match is reachable), and with no match it appends a new singleton cluster
created from the message. -/
theorem C1_add_encounter_matching (mgr : SimplisticClusterManager) (m : EncounterMessage)
    (h : mgr.is_outdated (.encounter m) = false) :
    (∀ j, j ∈ matchingIdxsFrom (encounterMatches m) mgr.clusters 0 ↔
        j < mgr.clusters.length ∧
          (mgr.clusters.getD j default).cluster_id = m.uid ∧
          (mgr.clusters.getD j default).risk_level = m.risk_level ∧
          (mgr.clusters.getD j default).first_update_time = m.encounter_time) ∧
      (matchingIdxsFrom (encounterMatches m) mgr.clusters 0 = [] →
        (mgr._add_encounter_message m).clusters =
          mgr.clusters ++ [SimpleCluster.create_cluster_from_message (.encounter m)]) ∧
      (mgr.rng = none → matchingIdxsFrom (encounterMatches m) mgr.clusters 0 ≠ [] →
        (∀ j ∈ matchingIdxsFrom (encounterMatches m) mgr.clusters 0,
            (matchingIdxsFrom (encounterMatches m) mgr.clusters 0).headD 0 ≤ j) ∧
          (mgr._add_encounter_message m).clusters =
            fitAt mgr.clusters
              ((matchingIdxsFrom (encounterMatches m) mgr.clusters 0).headD 0)
              (fun c => c.fit_encounter_message m)) ∧
      (∀ f : Nat → Nat, mgr.rng = some f →
        matchingIdxsFrom (encounterMatches m) mgr.clusters 0 ≠ [] →
          ∃ i ∈ matchingIdxsFrom (encounterMatches m) mgr.clusters 0,
            (mgr._add_encounter_message m).clusters =
              fitAt mgr.clusters i (fun c => c.fit_encounter_message m)) ∧
      (∀ i ∈ matchingIdxsFrom (encounterMatches m) mgr.clusters 0,
        ∃ f : Nat → Nat,
          (SimplisticClusterManager._add_encounter_message
              { mgr with rng := some f } m).clusters =
            fitAt mgr.clusters i (fun c => c.fit_encounter_message m)) := by
  refine ⟨?_, ?_, ?_, ?_, ?_⟩
  · intro j
    rw [mem_matchingIdxs_zero]
    simp only [encounterMatches, Bool.and_eq_true, beq_iff_eq]
    tauto
  · intro hemp
    rw [add_encounter_eq_of_nomatch mgr m h hemp]
  · intro hrng hne
    refine ⟨(headD_matchingIdxsFrom_min _ _ 0 hne).2, ?_⟩
    rw [add_encounter_eq_of_match mgr m h hne]
    simp [SimplisticClusterManager.pickIdx, hrng]
  · intro f hrng hne
    refine ⟨mgr.pickIdx (matchingIdxsFrom (encounterMatches m) mgr.clusters 0),
      pickIdx_mem mgr _ hne, ?_⟩
    rw [add_encounter_eq_of_match mgr m h hne]
  · intro i hi
    refine ⟨fun _ => (matchingIdxsFrom (encounterMatches m) mgr.clusters 0).indexOf i, ?_⟩
    have hne : matchingIdxsFrom (encounterMatches m) mgr.clusters 0 ≠ [] := by
      intro hnil
      rw [hnil] at hi
      cases hi
    rw [add_encounter_eq_of_match { mgr with
        rng := some fun _ => (matchingIdxsFrom (encounterMatches m) mgr.clusters 0).indexOf i }
      m h hne]
    have hlt : (matchingIdxsFrom (encounterMatches m) mgr.clusters 0).indexOf i <
        (matchingIdxsFrom (encounterMatches m) mgr.clusters 0).length :=
      List.indexOf_lt_length.2 hi
    have hdg : (matchingIdxsFrom (encounterMatches m) mgr.clusters 0).getD
        ((matchingIdxsFrom (encounterMatches m) mgr.clusters 0).indexOf i %
          (matchingIdxsFrom (encounterMatches m) mgr.clusters 0).length) 0 = i := by
      rw [Nat.mod_eq_of_lt hlt, List.getD_eq_getElem _ _ hlt]
      exact List.getElem_indexOf hlt
    simp only [SimplisticClusterManager.pickIdx, hdg]

/-- Witness for C1: a Manager holding one cluster with signature
`(uid=5, risk=2, t=100)` and no rng; ingesting a matching encounter fits
it into that earliest (index 0, the head of the match list) cluster. -/
theorem C1_witness :
    (SimplisticClusterManager._add_encounter_message
        { clusters :=
            [SimpleCluster.create_cluster_from_message (.encounter ⟨5, 2, 100, 7, 100, false⟩)]
          max_history_ticks_offset := 1209600
          add_orphan_updates_as_clusters := false
          generate_embeddings_by_timestamp := true
          latest_refresh_timestamp := 0
          is_outdated := fun _ => false
          rng := none }
        ⟨5, 2, 100, 9, 100, false⟩).clusters =
      fitAt
        [SimpleCluster.create_cluster_from_message (.encounter ⟨5, 2, 100, 7, 100, false⟩)]
        ((matchingIdxsFrom (encounterMatches ⟨5, 2, 100, 9, 100, false⟩)
            [SimpleCluster.create_cluster_from_message
              (.encounter ⟨5, 2, 100, 7, 100, false⟩)] 0).headD 0)
        (fun c => c.fit_encounter_message ⟨5, 2, 100, 9, 100, false⟩) :=
  ((C1_add_encounter_matching
      { clusters :=
          [SimpleCluster.create_cluster_from_message (.encounter ⟨5, 2, 100, 7, 100, false⟩)]
        max_history_ticks_offset := 1209600
        add_orphan_updates_as_clusters := false
        generate_embeddings_by_timestamp := true
        latest_refresh_timestamp := 0
        is_outdated := fun _ => false
        rng := none }
      ⟨5, 2, 100, 9, 100, false⟩ rfl).2.2.1 rfl (by decide)).2

theorem getD_mem_of_lt (l : List SimpleCluster) (k : Nat) (h : k < l.length) :
    l.getD k default ∈ l := by
  rw [List.getD_eq_getElem _ _ h]
  exact List.getElem_mem h

/-- C4: for a non-stale update message matching no cluster under
`add_update`'s match condition, the permissive policy appends a new
singleton cluster synthesized from the update, and the strict policy
raises a hard failure (modelled as `none`) with no retry or recovery. -/
theorem C4_orphan_update_policy (mgr : SimplisticClusterManager) (u : UpdateMessage)
    (h : mgr.is_outdated (.update u) = false)
    (hnomatch : ∀ c ∈ mgr.clusters, updateMatches u c = false) :
    (mgr.add_orphan_updates_as_clusters = true →
        mgr._add_update_message u =
          some { mgr with
            clusters :=
              mgr.clusters ++ [SimpleCluster.create_cluster_from_message (.update u)] }) ∧
      (mgr.add_orphan_updates_as_clusters = false →
        mgr._add_update_message u = none) := by
  have hemp : matchingIdxsFrom (updateMatches u) mgr.clusters 0 = [] := by
    rw [matchingIdxsFrom_eq_nil_iff]
    intro k hk
    exact hnomatch _ (getD_mem_of_lt mgr.clusters k hk)
  exact ⟨fun ho => add_update_eq_of_nomatch_orphan mgr u h hemp ho,
    fun ho => add_update_eq_of_nomatch_strict mgr u h hemp ho⟩

/-- Witness for C4: an empty Manager under the strict policy rejects the
orphan update with a hard failure, and under the permissive policy
appends the synthesized singleton cluster. -/
theorem C4_witness :
    SimplisticClusterManager._add_update_message
        { clusters := []
          max_history_ticks_offset := 1209600
          add_orphan_updates_as_clusters := false
          generate_embeddings_by_timestamp := true
          latest_refresh_timestamp := 0
          is_outdated := fun _ => false
          rng := none }
        ⟨5, 2, 4, 100, 200, 7, 100⟩ = none ∧
      SimplisticClusterManager._add_update_message
        { clusters := []
          max_history_ticks_offset := 1209600
          add_orphan_updates_as_clusters := true
          generate_embeddings_by_timestamp := true
          latest_refresh_timestamp := 0
          is_outdated := fun _ => false
          rng := none }
        ⟨5, 2, 4, 100, 200, 7, 100⟩ =
      some
        { clusters :=
            [] ++ [SimpleCluster.create_cluster_from_message (.update ⟨5, 2, 4, 100, 200, 7, 100⟩)]
          max_history_ticks_offset := 1209600
          add_orphan_updates_as_clusters := true
          generate_embeddings_by_timestamp := true
          latest_refresh_timestamp := 0
          is_outdated := fun _ => false
          rng := none } :=
  ⟨(C4_orphan_update_policy
      { clusters := []
        max_history_ticks_offset := 1209600
        add_orphan_updates_as_clusters := false
        generate_embeddings_by_timestamp := true
        latest_refresh_timestamp := 0
        is_outdated := fun _ => false
        rng := none }
      ⟨5, 2, 4, 100, 200, 7, 100⟩ rfl (by simp)).2 rfl,
    (C4_orphan_update_policy
      { clusters := []
        max_history_ticks_offset := 1209600
        add_orphan_updates_as_clusters := true
        generate_embeddings_by_timestamp := true
        latest_refresh_timestamp := 0
        is_outdated := fun _ => false
        rng := none }
      ⟨5, 2, 4, 100, 200, 7, 100⟩ rfl (by simp)).1 rfl⟩

/-- C6: starting from a Manager with no clusters and no rng, ingesting two
non-stale encounter messages with identical `(uid, risk_level,
encounter_time)` yields exactly one cluster, holding both messages in
arrival order. -/
theorem C6_two_identical_encounters (mgr : SimplisticClusterManager)
    (m1 m2 : EncounterMessage)
    (hcl : mgr.clusters = []) (hrng : mgr.rng = none)
    (huid : m2.uid = m1.uid) (hrisk : m2.risk_level = m1.risk_level)
    (htime : m2.encounter_time = m1.encounter_time)
    (h1 : mgr.is_outdated (.encounter m1) = false)
    (h2 : (mgr._add_encounter_message m1).is_outdated (.encounter m2) = false) :
    ((mgr._add_encounter_message m1)._add_encounter_message m2).clusters.length = 1 ∧
      ((mgr._add_encounter_message m1)._add_encounter_message m2).clusters.map
          (fun c => c.messages) = [[m1, m2]] := by
  have hemp : matchingIdxsFrom (encounterMatches m1) mgr.clusters 0 = [] := by
    rw [hcl]
    rfl
  have hstep1 := add_encounter_eq_of_nomatch mgr m1 h1 hemp
  have hcl1 : (mgr._add_encounter_message m1).clusters =
      [SimpleCluster.create_cluster_from_message (.encounter m1)] := by
    rw [hstep1]
    show mgr.clusters ++ [SimpleCluster.create_cluster_from_message (.encounter m1)] = _
    rw [hcl]
    rfl
  have hrng1 : (mgr._add_encounter_message m1).rng = none := by
    rw [hstep1]
    exact hrng
  have hm : encounterMatches m2
      (SimpleCluster.create_cluster_from_message (.encounter m1)) = true := by
    simp [encounterMatches, SimpleCluster.create_cluster_from_message, huid, hrisk, htime]
  have hmatch : matchingIdxsFrom (encounterMatches m2)
      (mgr._add_encounter_message m1).clusters 0 = [0] := by
    rw [hcl1]
    simp [matchingIdxsFrom, hm]
  have hne : matchingIdxsFrom (encounterMatches m2)
      (mgr._add_encounter_message m1).clusters 0 ≠ [] := by
    rw [hmatch]
    simp
  have hpick : (mgr._add_encounter_message m1).pickIdx
      (matchingIdxsFrom (encounterMatches m2) (mgr._add_encounter_message m1).clusters 0) =
        0 := by
    rw [hmatch]
    simp [SimplisticClusterManager.pickIdx, hrng1]
  have hres : ((mgr._add_encounter_message m1)._add_encounter_message m2).clusters =
      [(SimpleCluster.create_cluster_from_message
          (.encounter m1)).fit_encounter_message m2] := by
    rw [add_encounter_eq_of_match (mgr._add_encounter_message m1) m2 h2 hne]
    show fitAt (mgr._add_encounter_message m1).clusters _ _ = _
    rw [hpick, hcl1]
    rfl
  refine ⟨by rw [hres]; rfl, ?_⟩
  rw [hres]
  simp [SimpleCluster.fit_encounter_message, SimpleCluster.create_cluster_from_message]

/-- Witness for C6: the empty Manager fed `encounter(uid=5, risk=2,
t=100)` twice (distinct real senders) ends with one cluster holding both
messages. -/
theorem C6_witness :
    ((SimplisticClusterManager._add_encounter_message
          { clusters := []
            max_history_ticks_offset := 1209600
            add_orphan_updates_as_clusters := false
            generate_embeddings_by_timestamp := true
            latest_refresh_timestamp := 0
            is_outdated := fun _ => false
            rng := none }
          ⟨5, 2, 100, 7, 100, false⟩)._add_encounter_message
        ⟨5, 2, 100, 9, 100, false⟩).clusters.length = 1 ∧
      ((SimplisticClusterManager._add_encounter_message
          { clusters := []
            max_history_ticks_offset := 1209600
            add_orphan_updates_as_clusters := false
            generate_embeddings_by_timestamp := true
            latest_refresh_timestamp := 0
            is_outdated := fun _ => false
            rng := none }
          ⟨5, 2, 100, 7, 100, false⟩)._add_encounter_message
        ⟨5, 2, 100, 9, 100, false⟩).clusters.map (fun c => c.messages) =
      [[⟨5, 2, 100, 7, 100, false⟩, ⟨5, 2, 100, 9, 100, false⟩]] :=
  C6_two_identical_encounters
    { clusters := []
      max_history_ticks_offset := 1209600
      add_orphan_updates_as_clusters := false
      generate_embeddings_by_timestamp := true
      latest_refresh_timestamp := 0
      is_outdated := fun _ => false
      rng := none }
    ⟨5, 2, 100, 7, 100, false⟩ ⟨5, 2, 100, 9, 100, false⟩
    rfl rfl rfl rfl rfl rfl (by decide)

theorem getD_set_ne (l : List SimpleCluster) (i j : Nat) (c : SimpleCluster) (h : j ≠ i) :
    (l.set i c).getD j default = l.getD j default := by
  rw [List.getD_eq_getElem?_getD, List.getD_eq_getElem?_getD,
    List.getElem?_set_ne (Ne.symm h)]

/-- C10: a single `add_encounter` or (successful) `add_update` call either
leaves the cluster list unchanged, appends exactly one new cluster at the
end (existing clusters keep their creation-order positions), or replaces
exactly one pre-existing cluster in place, every other pre-existing
cluster's state unchanged. -/
theorem C10_frame_effect (mgr : SimplisticClusterManager) (m : EncounterMessage)
    (u : UpdateMessage) :
    ((mgr._add_encounter_message m).clusters = mgr.clusters ∨
        (∃ c, (mgr._add_encounter_message m).clusters = mgr.clusters ++ [c]) ∨
        (∃ i c, i < mgr.clusters.length ∧
          (mgr._add_encounter_message m).clusters = mgr.clusters.set i c ∧
          ∀ j, j ≠ i →
            (mgr._add_encounter_message m).clusters.getD j default =
              mgr.clusters.getD j default)) ∧
      (∀ res : SimplisticClusterManager, mgr._add_update_message u = some res →
        res.clusters = mgr.clusters ∨
          (∃ c, res.clusters = mgr.clusters ++ [c]) ∨
          (∃ i c, i < mgr.clusters.length ∧ res.clusters = mgr.clusters.set i c ∧
            ∀ j, j ≠ i →
              res.clusters.getD j default = mgr.clusters.getD j default)) := by
  constructor
  · cases ho : mgr.is_outdated (.encounter m) with
    | true =>
        left
        rw [add_encounter_eq_of_outdated mgr m ho]
    | false =>
        rcases eq_or_ne (matchingIdxsFrom (encounterMatches m) mgr.clusters 0) []
          with hemp | hne
        · right; left
          exact ⟨_, by rw [add_encounter_eq_of_nomatch mgr m ho hemp]⟩
        · right; right
          have hmem := pickIdx_mem mgr _ hne
          have hilt : mgr.pickIdx (matchingIdxsFrom (encounterMatches m) mgr.clusters 0) <
              mgr.clusters.length :=
            ((mem_matchingIdxs_zero _ _ _).1 hmem).1
          refine ⟨mgr.pickIdx (matchingIdxsFrom (encounterMatches m) mgr.clusters 0),
            (mgr.clusters.getD
                (mgr.pickIdx (matchingIdxsFrom (encounterMatches m) mgr.clusters 0))
                default).fit_encounter_message m,
            hilt, ?_, ?_⟩
          · rw [add_encounter_eq_of_match mgr m ho hne]
            show fitAt mgr.clusters _ _ = _
            rw [fitAt_eq_set _ _ _ hilt]
          · intro j hj
            rw [add_encounter_eq_of_match mgr m ho hne]
            show (fitAt mgr.clusters _ _).getD j default = _
            rw [fitAt_eq_set _ _ _ hilt]
            exact getD_set_ne _ _ _ _ hj
  · intro res hres
    cases ho : mgr.is_outdated (.update u) with
    | true =>
        left
        rw [add_update_eq_of_outdated mgr u ho] at hres
        cases hres
        rfl
    | false =>
        rcases eq_or_ne (matchingIdxsFrom (updateMatches u) mgr.clusters 0) []
          with hemp | hne
        · cases horphan : mgr.add_orphan_updates_as_clusters with
          | true =>
              right; left
              rw [add_update_eq_of_nomatch_orphan mgr u ho hemp horphan] at hres
              cases hres
              exact ⟨_, rfl⟩
          | false =>
              rw [add_update_eq_of_nomatch_strict mgr u ho hemp horphan] at hres
              cases hres
        · right; right
          have hmem := pickIdx_mem mgr _ hne
          have hilt : mgr.pickIdx (matchingIdxsFrom (updateMatches u) mgr.clusters 0) <
              mgr.clusters.length :=
            ((mem_matchingIdxs_zero _ _ _).1 hmem).1
          rw [add_update_eq_of_match mgr u ho hne] at hres
          cases hres
          refine ⟨mgr.pickIdx (matchingIdxsFrom (updateMatches u) mgr.clusters 0),
            ((mgr.clusters.getD
                (mgr.pickIdx (matchingIdxsFrom (updateMatches u) mgr.clusters 0))
                default).fit_update_message u).1,
            hilt, ?_, ?_⟩
          · show fitAt mgr.clusters _ _ = _
            rw [fitAt_eq_set _ _ _ hilt]
          · intro j hj
            show (fitAt mgr.clusters _ _).getD j default = _
            rw [fitAt_eq_set _ _ _ hilt]
            exact getD_set_ne _ _ _ _ hj

/-- Witness for C10's update branch: the empty permissive Manager accepts
an orphan update, and the frame disjunction holds for the resulting
Manager (here: an append). -/
theorem C10_witness :
    orphanUpdateResult.clusters = emptyPermissiveManager.clusters ∨
      (∃ c, orphanUpdateResult.clusters = emptyPermissiveManager.clusters ++ [c]) ∨
      (∃ i c, i < emptyPermissiveManager.clusters.length ∧
        orphanUpdateResult.clusters = emptyPermissiveManager.clusters.set i c ∧
        ∀ j, j ≠ i →
          orphanUpdateResult.clusters.getD j default =
            emptyPermissiveManager.clusters.getD j default) :=
  (C10_frame_effect emptyPermissiveManager ⟨5, 2, 100, 7, 100, false⟩
      ⟨5, 2, 4, 100, 200, 7, 100⟩).2 orphanUpdateResult rfl

theorem senderCountIn_le (c : SimpleCluster) (user : Nat) :
    senderCountIn c user ≤ c.messages.length :=
  List.length_filter_le _ _

theorem senderCountIn_pos_iff (c : SimpleCluster) (user : Nat) :
    0 < senderCountIn c user ↔ clusterHasSender c user = true := by
  constructor
  · intro h
    obtain ⟨x, hx⟩ := List.exists_mem_of_length_pos h
    have hx2 := List.mem_filter.1 hx
    simp only [clusterHasSender, List.any_eq_true]
    exact ⟨x, hx2.1, hx2.2⟩
  · intro h
    simp only [clusterHasSender, List.any_eq_true] at h
    obtain ⟨x, hx, hp⟩ := h
    exact List.length_pos.2
      (List.ne_nil_of_mem (List.mem_filter.2 ⟨hx, hp⟩))

theorem sum_senderCount_le_total (clusters : List SimpleCluster) (user : Nat) :
    ((clusters.map fun c => senderCountIn c user).sum) ≤
      (((clusters.filter fun c => clusterHasSender c user).map
          fun c => c.messages.length).sum) := by
  induction clusters with
  | nil => simp
  | cons c rest ih =>
      by_cases h : clusterHasSender c user = true
      · rw [List.map_cons, List.sum_cons, List.filter_cons, if_pos h, List.map_cons,
          List.sum_cons]
        exact Nat.add_le_add (senderCountIn_le c user) ih
      · have h0 : senderCountIn c user = 0 := by
          by_contra hne
          exact h ((senderCountIn_pos_iff c user).1 (Nat.pos_of_ne_zero hne))
        rw [List.map_cons, List.sum_cons, h0, List.filter_cons, if_neg h]
        simpa using ih

theorem mem_homogeneity_users_iff (mgr : SimplisticClusterManager) (user : Nat) :
    user ∈ mgr.homogeneity_users ↔
      ∃ c ∈ mgr.clusters, ∃ m ∈ c.messages, m._sender_uid = user := by
  simp only [SimplisticClusterManager.homogeneity_users, List.mem_dedup, List.mem_flatten,
    List.mem_map]
  constructor
  · rintro ⟨s, ⟨c, hc, rfl⟩, hs⟩
    obtain ⟨m, hm, rfl⟩ := List.mem_map.1 hs
    exact ⟨c, hc, m, hm, rfl⟩
  · rintro ⟨c, hc, m, hm, rfl⟩
    exact ⟨c.messages.map fun m2 => m2._sender_uid, ⟨c, hc, rfl⟩,
      List.mem_map.2 ⟨m, hm, rfl⟩⟩

theorem true_count_pos (mgr : SimplisticClusterManager) (user : Nat)
    (h : user ∈ mgr.homogeneity_users) : 0 < mgr.true_count user := by
  obtain ⟨c, hc, m, hm, hs⟩ := (mem_homogeneity_users_iff mgr user).1 h
  have hcnt : 0 < senderCountIn c user := by
    rw [senderCountIn_pos_iff]
    simp only [clusterHasSender, List.any_eq_true]
    exact ⟨m, hm, by simp [hs]⟩
  have hmem : senderCountIn c user ∈ mgr.clusters.map fun c2 => senderCountIn c2 user :=
    List.mem_map.2 ⟨c, hc, rfl⟩
  exact lt_of_lt_of_le hcnt
    (List.single_le_sum (fun y _ => Nat.zero_le y) _ hmem)

theorem total_count_pos (mgr : SimplisticClusterManager) (user : Nat)
    (h : user ∈ mgr.homogeneity_users) : 0 < mgr.total_count user := by
  obtain ⟨c, hc, m, hm, hs⟩ := (mem_homogeneity_users_iff mgr user).1 h
  have hhas : clusterHasSender c user = true := by
    simp only [clusterHasSender, List.any_eq_true]
    exact ⟨m, hm, by simp [hs]⟩
  have hlen : 0 < c.messages.length := List.length_pos.2 (List.ne_nil_of_mem hm)
  have hmem : c.messages.length ∈
      ((mgr.clusters.filter fun c2 => clusterHasSender c2 user).map
        fun c2 => c2.messages.length) :=
    List.mem_map.2 ⟨c, List.mem_filter.2 ⟨hc, hhas⟩, rfl⟩
  exact lt_of_lt_of_le hlen
    (List.single_le_sum (fun y _ => Nat.zero_le y) _ hmem)

/-- C9: for each real sender id appearing in any cluster's current
messages, the homogeneity score equals `true_count / total_count`
(messages contributed by the sender across all clusters over the summed
full message counts of the clusters containing at least one of the
sender's messages), the denominator is nonzero, and the score lies in
`[0, 1]`. -/
theorem C9_homogeneity_scores (mgr : SimplisticClusterManager) (user : Nat)
    (h : user ∈ mgr.homogeneity_users) :
    mgr.homogeneity_score user =
        (mgr.true_count user : ℚ) / (mgr.total_count user : ℚ) ∧
      0 < mgr.total_count user ∧
      mgr.true_count user ≤ mgr.total_count user ∧
      0 ≤ mgr.homogeneity_score user ∧
      mgr.homogeneity_score user ≤ 1 ∧
      (user ∈ mgr.homogeneity_users ↔
        ∃ c ∈ mgr.clusters, ∃ m ∈ c.messages, m._sender_uid = user) := by
  have hT : 0 < mgr.total_count user := total_count_pos mgr user h
  have hle : mgr.true_count user ≤ mgr.total_count user :=
    sum_senderCount_le_total mgr.clusters user
  have hTq : (0 : ℚ) < (mgr.total_count user : ℚ) := by exact_mod_cast hT
  refine ⟨rfl, hT, hle, ?_, ?_, mem_homogeneity_users_iff mgr user⟩
  · exact div_nonneg (by positivity) (le_of_lt hTq)
  · rw [SimplisticClusterManager.homogeneity_score, div_le_one hTq]
    exact_mod_cast hle

/-- Witness for C9: in the Manager holding the single orphan-update
cluster, sender 7 has score `1/1` and the bounds hold. -/
theorem C9_witness :
    orphanUpdateResult.homogeneity_score 7 =
        (orphanUpdateResult.true_count 7 : ℚ) / (orphanUpdateResult.total_count 7 : ℚ) ∧
      0 < orphanUpdateResult.total_count 7 ∧
      orphanUpdateResult.true_count 7 ≤ orphanUpdateResult.total_count 7 ∧
      0 ≤ orphanUpdateResult.homogeneity_score 7 ∧
      orphanUpdateResult.homogeneity_score 7 ≤ 1 ∧
      (7 ∈ orphanUpdateResult.homogeneity_users ↔
        ∃ c ∈ orphanUpdateResult.clusters, ∃ m ∈ c.messages, m._sender_uid = 7) :=
  C9_homogeneity_scores orphanUpdateResult 7 (by decide)

theorem length_grouped_eq (pairs : List (Nat × List ℤ)) (keys : List Nat)
    (hnd : keys.Nodup) (hcov : ∀ p ∈ pairs, p.1 ∈ keys) :
    ((keys.map fun t => (pairs.filter fun p => p.1 == t).map Prod.snd).flatten).length =
      pairs.length := by
  induction keys generalizing pairs with
  | nil =>
      cases pairs with
      | nil => simp
      | cons p rest => exact absurd (hcov p (List.mem_cons_self _ _)) (List.not_mem_nil _)
  | cons t rest ih =>
      rw [List.map_cons, List.flatten_cons, List.length_append, List.length_map]
      have htnotmem : t ∉ rest := (List.nodup_cons.1 hnd).1
      have hsub : ∀ t2 ∈ rest, (pairs.filter fun p => p.1 == t2) =
          ((pairs.filter fun p => !(p.1 == t)).filter fun p => p.1 == t2) := by
        intro t2 ht2
        have hne : t2 ≠ t := fun hh => htnotmem (hh ▸ ht2)
        rw [List.filter_filter]
        apply List.filter_congr
        intro p hp
        by_cases hpt : p.1 = t2
        · simp [hpt, hne]
        · simp [hpt]
      have hmapeq : (rest.map fun t2 => (pairs.filter fun p => p.1 == t2).map Prod.snd) =
          (rest.map fun t2 =>
            (((pairs.filter fun p => !(p.1 == t)).filter fun p => p.1 == t2)).map
              Prod.snd) :=
        List.map_congr_left fun t2 ht2 => by rw [hsub t2 ht2]
      have hcov2 : ∀ p ∈ (pairs.filter fun p => !(p.1 == t)), p.1 ∈ rest := by
        intro p hp
        have hp2 := List.mem_filter.1 hp
        rcases List.mem_cons.1 (hcov p hp2.1) with h1 | h1
        · exfalso
          have hb := hp2.2
          simp [h1] at hb
        · exact h1
      rw [hmapeq, ih (pairs.filter fun p => !(p.1 == t)) (List.nodup_cons.1 hnd).2 hcov2]
      have := @List.length_eq_length_filter_add _ pairs (fun p => p.1 == t)
      omega

/-- C7: `export_embeddings` has exactly two modes: in timestamp-aligned
mode it equals the spec-side grouping (one embedding per cluster with the
cluster id included, computed at `latest_refresh_timestamp`, replicated
once per held message under that message's `encounter_time`, groups
concatenated in ascending timestamp order with insertion order preserved
inside each group — one row per message); in cluster mode it is one
embedding per cluster, id excluded, in creation order with no grouping. -/
theorem C7_export_embeddings_modes (mgr : SimplisticClusterManager) :
    (mgr.generate_embeddings_by_timestamp = true →
        mgr.get_embeddings_array = export_embeddings_ts_spec mgr ∧
          mgr.get_embeddings_array.length =
            (mgr.clusters.map fun c => c.messages.length).sum) ∧
      (mgr.generate_embeddings_by_timestamp = false →
        mgr.get_embeddings_array =
          mgr.clusters.map fun c =>
            c.get_cluster_embedding mgr.latest_refresh_timestamp false) := by
  constructor
  · intro hts
    have hkeyA : ((buildClusterEmbeds [] mgr.embedPairs).map Prod.fst).Nodup :=
      nodup_keys_buildClusterEmbeds _ _ (by simp)
    have hkeyB : ((mgr.embedPairs.map Prod.fst).dedup).Nodup := List.nodup_dedup _
    have hiff : ∀ k, k ∈ (buildClusterEmbeds [] mgr.embedPairs).map Prod.fst ↔
        k ∈ (mgr.embedPairs.map Prod.fst).dedup := by
      intro k
      rw [mem_keys_buildClusterEmbeds, List.mem_dedup]
      simp
    have hperm : ((buildClusterEmbeds [] mgr.embedPairs).map Prod.fst).Perm
        ((mgr.embedPairs.map Prod.fst).dedup) :=
      (List.perm_ext_iff_of_nodup hkeyA hkeyB).2 hiff
    have hsorteq :
        ((buildClusterEmbeds [] mgr.embedPairs).map Prod.fst).insertionSort (· ≤ ·) =
          ((mgr.embedPairs.map Prod.fst).dedup).insertionSort (· ≤ ·) :=
      List.eq_of_perm_of_sorted
        (((List.perm_insertionSort (· ≤ ·)
              ((buildClusterEmbeds [] mgr.embedPairs).map Prod.fst)).trans hperm).trans
          (List.perm_insertionSort (· ≤ ·)
            ((mgr.embedPairs.map Prod.fst).dedup)).symm)
        (List.sorted_insertionSort (· ≤ ·) _) (List.sorted_insertionSort (· ≤ ·) _)
    have hfun : (fun t => dictGet (buildClusterEmbeds [] mgr.embedPairs) t) =
        (fun t => (mgr.embedPairs.filter fun p => p.1 == t).map Prod.snd) := by
      funext t
      rw [dictGet_buildClusterEmbeds]
      rfl
    have hmain : mgr.get_embeddings_array = export_embeddings_ts_spec mgr := by
      unfold SimplisticClusterManager.get_embeddings_array export_embeddings_ts_spec
      rw [if_pos hts]
      show (List.map (fun t => dictGet (buildClusterEmbeds [] mgr.embedPairs) t)
          (List.insertionSort (· ≤ ·)
            (List.map Prod.fst (buildClusterEmbeds [] mgr.embedPairs)))).flatten = _
      rw [hsorteq, hfun]
    refine ⟨hmain, ?_⟩
    rw [hmain]
    unfold export_embeddings_ts_spec
    have hnd : (((mgr.embedPairs.map Prod.fst).dedup).insertionSort (· ≤ ·)).Nodup :=
      (List.perm_insertionSort _ _).nodup_iff.2 (List.nodup_dedup _)
    have hcov : ∀ p ∈ mgr.embedPairs,
        p.1 ∈ ((mgr.embedPairs.map Prod.fst).dedup).insertionSort (· ≤ ·) := by
      intro p hp
      rw [(List.perm_insertionSort _ _).mem_iff, List.mem_dedup]
      exact List.mem_map.2 ⟨p, hp, rfl⟩
    rw [length_grouped_eq mgr.embedPairs _ hnd hcov]
    unfold SimplisticClusterManager.embedPairs
    rw [List.length_flatten, List.map_map]
    congr 1
    apply List.map_congr_left
    intro c hc
    simp [Function.comp]
  · intro hts
    unfold SimplisticClusterManager.get_embeddings_array
    rw [if_neg (by simp [hts])]

/-- Witness for C7: both modes instantiated — the one-cluster Manager in
timestamp-aligned mode, and the same Manager with the flag off in cluster
mode. -/
theorem C7_witness :
    (orphanUpdateResult.get_embeddings_array = export_embeddings_ts_spec orphanUpdateResult ∧
        orphanUpdateResult.get_embeddings_array.length =
          (orphanUpdateResult.clusters.map fun c => c.messages.length).sum) ∧
      SimplisticClusterManager.get_embeddings_array
          { orphanUpdateResult with generate_embeddings_by_timestamp := false } =
        ({ orphanUpdateResult with
            generate_embeddings_by_timestamp := false } :
              SimplisticClusterManager).clusters.map
          (fun c =>
            c.get_cluster_embedding
              ({ orphanUpdateResult with
                  generate_embeddings_by_timestamp := false } :
                    SimplisticClusterManager).latest_refresh_timestamp false) :=
  ⟨(C7_export_embeddings_modes orphanUpdateResult).1 rfl,
    (C7_export_embeddings_modes
      { orphanUpdateResult with generate_embeddings_by_timestamp := false }).2 rfl⟩
